import Mathlib

/-!
Verification of the Dixon-Coles match-outcome engine.

The definitions below are a shallow embedding, over the real numbers, of the
statistical core of the repository: the Poisson probability primitive, the
log-factorial primitive, the Dixon-Coles four-cell correlation adjustment,
the score-matrix builder, the outcome aggregator, and the two
market-efficiency analyzers (value-bet and arbitrage detection).
Floating-point arithmetic of the source is modelled by exact real arithmetic;
one auxiliary model (`poissonProbabilityIEEE`) additionally tracks the IEEE
special values NaN and ±infinity, which decide the behaviour at rate zero.
-/

open Finset

/-- Embedding of logFactorial: ln(k!), exact summation of ln(i) for
2 ≤ k < 20, Stirling approximation k·ln k − k + 0.5·ln(2πk) for k ≥ 20,
and 0 for k ≤ 1. -/
noncomputable def logFactorial (k : ℕ) : ℝ :=
  if k ≤ 1 then 0
  else if k < 20 then ∑ i ∈ Finset.Icc 2 k, Real.log i
  else (k : ℝ) * Real.log k - (k : ℝ) + 0.5 * Real.log (2 * Real.pi * k)

/-- Embedding of poissonProbability: 0 for k < 0, otherwise
exp(k·ln λ − λ − ln k!), computed in log space as in the source. -/
noncomputable def poissonProbability (lambda : ℝ) (k : ℤ) : ℝ :=
  if k < 0 then 0
  else Real.exp ((k : ℝ) * Real.log lambda - lambda - logFactorial k.toNat)

/-- Embedding of dixonColesTau: the four-cell correction factor,
(1−ρ) on (0,0) and (1,1), (1+ρ) on (0,1) and (1,0), and 1 elsewhere. -/
def dixonColesTau (homeGoals awayGoals : ℕ) (rho : ℝ) : ℝ :=
  if homeGoals = 0 ∧ awayGoals = 0 then 1 - rho
  else if homeGoals = 0 ∧ awayGoals = 1 then 1 + rho
  else if homeGoals = 1 ∧ awayGoals = 0 then 1 + rho
  else if homeGoals = 1 ∧ awayGoals = 1 then 1 - rho
  else 1

/-- First pass of the score-matrix builder: the raw independent-Poisson
product for one cell. -/
noncomputable def scoreMatrixRaw (lambdaHome lambdaAway : ℝ) (home away : ℕ) : ℝ :=
  poissonProbability lambdaHome (home : ℤ) * poissonProbability lambdaAway (away : ℤ)

/-- Second pass of the score-matrix builder: the raw cell multiplied by its
Dixon-Coles correction factor. -/
noncomputable def scoreMatrixAdjusted (lambdaHome lambdaAway : ℝ) (rho : ℝ) (home away : ℕ) : ℝ :=
  scoreMatrixRaw lambdaHome lambdaAway home away * dixonColesTau home away rho

/-- The normalization constant of the score-matrix builder: the sum of all
adjusted cells (the source's matrix.flat().reduce over the grid). -/
noncomputable def scoreMatrixTotal (lambdaHome lambdaAway : ℝ) (maxGoals : ℕ) (rho : ℝ) : ℝ :=
  ∑ home ∈ Finset.range (maxGoals + 1), ∑ away ∈ Finset.range (maxGoals + 1),
    scoreMatrixAdjusted lambdaHome lambdaAway rho home away

/-- Embedding of calculateScoreMatrix: the (maxGoals+1)×(maxGoals+1) grid of
adjusted cells, each divided by the total so the grid sums to one. -/
noncomputable def calculateScoreMatrix (lambdaHome lambdaAway : ℝ) (maxGoals : ℕ) (rho : ℝ) :
    List (List ℝ) :=
  (List.range (maxGoals + 1)).map (fun home =>
    (List.range (maxGoals + 1)).map (fun away =>
      scoreMatrixAdjusted lambdaHome lambdaAway rho home away /
        scoreMatrixTotal lambdaHome lambdaAway maxGoals rho))

/-- Reading matrix[home][away] from a list-of-lists matrix (0 outside). -/
def matrixCell (m : List (List ℝ)) (home away : ℕ) : ℝ :=
  (m.getD home []).getD away 0

/-- The record returned by predictMatch. -/
structure MatchPrediction where
  probHome : ℝ
  probDraw : ℝ
  probAway : ℝ
  xgHome : ℝ
  xgAway : ℝ
  prob0_0 : ℝ
  probOver2_5 : ℝ
  probBTTS : ℝ

/-- Embedding of predictMatch: builds the matrix with the source's call
calculateScoreMatrix(lambdaHome, lambdaAway) — which resolves the default
parameters maxGoals = 10 and rho = −0.13 — takes maxGoals from the matrix
length, and accumulates each cell into the outcome buckets. -/
noncomputable def predictMatch (lambdaHome lambdaAway : ℝ) : MatchPrediction :=
  let matrix := calculateScoreMatrix lambdaHome lambdaAway 10 (-0.13)
  let maxGoals := matrix.length - 1
  { probHome := ∑ home ∈ Finset.range (maxGoals + 1), ∑ away ∈ Finset.range (maxGoals + 1),
      if away < home then matrixCell matrix home away else 0
    probDraw := ∑ home ∈ Finset.range (maxGoals + 1), ∑ away ∈ Finset.range (maxGoals + 1),
      if home = away then matrixCell matrix home away else 0
    probAway := ∑ home ∈ Finset.range (maxGoals + 1), ∑ away ∈ Finset.range (maxGoals + 1),
      if home < away then matrixCell matrix home away else 0
    xgHome := lambdaHome
    xgAway := lambdaAway
    prob0_0 := matrixCell matrix 0 0
    probOver2_5 := ∑ home ∈ Finset.range (maxGoals + 1), ∑ away ∈ Finset.range (maxGoals + 1),
      if (2.5 : ℝ) < (home : ℝ) + (away : ℝ) then matrixCell matrix home away else 0
    probBTTS := ∑ home ∈ Finset.range (maxGoals + 1), ∑ away ∈ Finset.range (maxGoals + 1),
      if 0 < home ∧ 0 < away then matrixCell matrix home away else 0 }

/-- Embedding of calculateExpectedGoals: the four-factor product. -/
def calculateExpectedGoals (attackStrength defenseStrengthOpp leagueAvg homeAdvantage : ℝ) : ℝ :=
  attackStrength * defenseStrengthOpp * leagueAvg * homeAdvantage

/-- The record returned by findValueBet. -/
structure ValueBetResult where
  hasValue : Bool
  edge : ℝ
  fairOdds : ℝ

/-- Embedding of findValueBet: implied probability 1/odds, fair odds
1/trueProbability, relative edge, flag when the raw edge exceeds the margin,
edge reported as a percentage. -/
noncomputable def findValueBet (trueProbability odds margin : ℝ) : ValueBetResult :=
  let impliedProbability := 1 / odds
  let fairOdds := 1 / trueProbability
  let edge := (trueProbability - impliedProbability) / impliedProbability
  { hasValue := decide (edge > margin)
    edge := edge * 100
    fairOdds := fairOdds }

/-- The record returned by detectArbitrage. -/
structure ArbitrageResult where
  isArbitrage : Bool
  profitMargin : ℝ

/-- Embedding of detectArbitrage: sums implied probabilities of the two or
three supplied prices (the third is skipped when absent or zero, matching the
source's truthiness test) and flags a sum strictly below one. -/
noncomputable def detectArbitrage (odds1 odds2 : ℝ) (odds3 : Option ℝ) : ArbitrageResult :=
  let probs : List ℝ := [1 / odds1, 1 / odds2] ++
    (match odds3 with
     | some o => if o = 0 then [] else [1 / o]
     | none => [])
  let totalImplied := probs.sum
  { isArbitrage := decide (totalImplied < 1)
    profitMargin := (1 / totalImplied - 1) * 100 }

/-! ### Market-efficiency analyzers: claims C3 and C4 -/

/-- C3: detectArbitrage flags exactly the inputs whose implied probabilities
sum strictly below 1, and reports profitMargin = (1/sum − 1)·100; in the
two-price case the sum is 1/odds1 + 1/odds2, in the three-price case
1/odds1 + 1/odds2 + 1/odds3. -/
theorem detectArbitrage_spec :
    (∀ o1 o2 : ℝ,
      ((detectArbitrage o1 o2 none).isArbitrage = true ↔ 1 / o1 + 1 / o2 < 1) ∧
      (detectArbitrage o1 o2 none).profitMargin = (1 / (1 / o1 + 1 / o2) - 1) * 100) ∧
    (∀ o1 o2 o3 : ℝ,
      ((detectArbitrage o1 o2 (some o3)).isArbitrage = true ↔ 1 / o1 + 1 / o2 + 1 / o3 < 1) ∧
      (detectArbitrage o1 o2 (some o3)).profitMargin = (1 / (1 / o1 + 1 / o2 + 1 / o3) - 1) * 100) ∧
    (detectArbitrage 2.10 2.10 none).isArbitrage = true ∧
    (detectArbitrage 2.10 2.10 none).profitMargin = 5 ∧
    (detectArbitrage 1.90 1.90 none).isArbitrage = false := by
  refine ⟨fun o1 o2 => ?_, fun o1 o2 o3 => ?_, ?_, ?_, ?_⟩
  · simp [detectArbitrage, decide_eq_true_eq]
  · by_cases h3 : o3 = 0
    · subst h3
      simp [detectArbitrage, decide_eq_true_eq]
    · simp [detectArbitrage, h3, decide_eq_true_eq, add_assoc]
  · simp only [detectArbitrage, decide_eq_true_eq]
    norm_num
  · simp only [detectArbitrage]
    norm_num
  · simp only [detectArbitrage, decide_eq_true_eq]
    norm_num

/-- C4: findValueBet returns fairOdds = 1/trueProbability, edge equal to the
relative edge (trueProbability − 1/odds)/(1/odds) times 100, and hasValue
exactly when the raw (un-percentaged) edge exceeds the margin. -/
theorem findValueBet_spec (p odds margin : ℝ) (hp0 : 0 < p) (hp1 : p < 1) (ho : 1 < odds) :
    (findValueBet p odds margin).fairOdds = 1 / p ∧
    (findValueBet p odds margin).edge = (p - 1 / odds) / (1 / odds) * 100 ∧
    ((findValueBet p odds margin).hasValue = true ↔
      margin < (p - 1 / odds) / (1 / odds)) := by
  refine ⟨rfl, rfl, ?_⟩
  simp [findValueBet, decide_eq_true_eq, gt_iff_lt]

/-- C4 witness: the concrete example of the claim — findValueBet(0.50, 2.20,
0.05) has value, edge 10 percent, fair odds 2. -/
theorem findValueBet_spec_witness :
    (findValueBet 0.50 2.20 0.05).hasValue = true ∧
    (findValueBet 0.50 2.20 0.05).edge = 10 ∧
    (findValueBet 0.50 2.20 0.05).fairOdds = 2 := by
  obtain ⟨h1, h2, h3⟩ := findValueBet_spec 0.50 2.20 0.05 (by norm_num) (by norm_num) (by norm_num)
  refine ⟨h3.mpr (by norm_num), ?_, ?_⟩
  · rw [h2]; norm_num
  · rw [h1]; norm_num

/-! ### Log-factorial: claim C9 -/

/-- The exact branch of logFactorial really is ln(k!): the sum of ln(i) for
i in [2,k] equals the logarithm of the factorial. -/
theorem sum_log_Icc_eq_log_factorial (k : ℕ) :
    ∑ i ∈ Finset.Icc 2 k, Real.log i = Real.log (Nat.factorial k) := by
  have hfac : ((Nat.factorial k : ℕ) : ℝ) = ∏ x ∈ Finset.Ico 1 (k + 1), (x : ℝ) := by
    rw [← Nat.cast_prod, Finset.prod_Ico_id_eq_factorial]
  rw [hfac, Real.log_prod _ _ (fun x hx => by
    have : 1 ≤ x := (Finset.mem_Ico.mp hx).1
    exact Nat.cast_ne_zero.mpr (by omega))]
  cases k with
  | zero => simp
  | succ n =>
    rw [Finset.sum_eq_sum_Ico_succ_bot (by omega) (fun x => Real.log (x : ℝ))]
    rw [Nat.cast_one, Real.log_one, zero_add, Nat.Ico_succ_right]

/-- C9: logFactorial returns 0 for k ≤ 1, the exact sum of ln(i) for i in
[2,k] (equivalently ln(k!)) when 2 ≤ k < 20, and Stirling's approximation
k·ln(k) − k + 0.5·ln(2πk) when k ≥ 20. -/
theorem logFactorial_spec (k : ℕ) :
    (k ≤ 1 → logFactorial k = 0) ∧
    (2 ≤ k → k < 20 →
      logFactorial k = ∑ i ∈ Finset.Icc 2 k, Real.log i ∧
      logFactorial k = Real.log (Nat.factorial k)) ∧
    (20 ≤ k → logFactorial k =
      (k : ℝ) * Real.log k - (k : ℝ) + 0.5 * Real.log (2 * Real.pi * k)) := by
  refine ⟨fun h1 => ?_, fun h2 h20 => ?_, fun h20 => ?_⟩
  · rw [logFactorial, if_pos h1]
  · have hx : logFactorial k = ∑ i ∈ Finset.Icc 2 k, Real.log i := by
      rw [logFactorial, if_neg (by omega), if_pos h20]
    exact ⟨hx, hx.trans (sum_log_Icc_eq_log_factorial k)⟩
  · rw [logFactorial, if_neg (by omega), if_neg (by omega)]

/-- C9 witness: concrete instances of all three branches of logFactorial. -/
theorem logFactorial_spec_witness :
    logFactorial 0 = 0 ∧ logFactorial 5 = Real.log (Nat.factorial 5) ∧
    logFactorial 25 = 25 * Real.log 25 - 25 + 0.5 * Real.log (2 * Real.pi * 25) := by
  refine ⟨(logFactorial_spec 0).1 (by norm_num),
    ((logFactorial_spec 5).2.1 (by norm_num) (by norm_num)).2, ?_⟩
  have h := (logFactorial_spec 25).2.2 (by norm_num)
  exact_mod_cast h

/-! ### Score-matrix access lemmas -/

/-- The sum of a list built by mapping over List.range agrees with the
corresponding Finset sum. -/
theorem sum_list_range_map (f : ℕ → ℝ) (n : ℕ) :
    ((List.range n).map f).sum = ∑ i ∈ Finset.range n, f i := by
  induction n with
  | zero => simp
  | succ n ih =>
    rw [List.range_succ, List.map_append, List.sum_append, Finset.sum_range_succ, ih]
    simp

/-- The score matrix has maxGoals + 1 rows. -/
theorem calculateScoreMatrix_length (lambdaHome lambdaAway : ℝ) (maxGoals : ℕ) (rho : ℝ) :
    (calculateScoreMatrix lambdaHome lambdaAway maxGoals rho).length = maxGoals + 1 := by
  simp [calculateScoreMatrix]

/-- Reading an in-range cell of the score matrix gives the adjusted value
divided by the normalization total. -/
theorem matrixCell_calculateScoreMatrix (lambdaHome lambdaAway : ℝ) (maxGoals : ℕ) (rho : ℝ)
    {home away : ℕ} (hh : home ≤ maxGoals) (ha : away ≤ maxGoals) :
    matrixCell (calculateScoreMatrix lambdaHome lambdaAway maxGoals rho) home away =
      scoreMatrixAdjusted lambdaHome lambdaAway rho home away /
        scoreMatrixTotal lambdaHome lambdaAway maxGoals rho := by
  have hh2 : home < maxGoals + 1 := by omega
  have ha2 : away < maxGoals + 1 := by omega
  simp [matrixCell, calculateScoreMatrix, List.getD_eq_getElem?_getD,
    List.getElem?_map, List.getElem?_range, hh2, ha2]

/-- The source's matrix.flat() sum is the double Finset sum of the
normalized cells. -/
theorem calculateScoreMatrix_flatten_sum (lambdaHome lambdaAway : ℝ) (maxGoals : ℕ) (rho : ℝ) :
    (calculateScoreMatrix lambdaHome lambdaAway maxGoals rho).flatten.sum =
      ∑ home ∈ Finset.range (maxGoals + 1), ∑ away ∈ Finset.range (maxGoals + 1),
        scoreMatrixAdjusted lambdaHome lambdaAway rho home away /
          scoreMatrixTotal lambdaHome lambdaAway maxGoals rho := by
  rw [calculateScoreMatrix, List.sum_flatten, List.map_map]
  rw [sum_list_range_map]
  exact Finset.sum_congr rfl fun h _ => sum_list_range_map _ _

/-- The Poisson primitive is positive at any non-negative count (it is an
exponential in the real model). -/
theorem poissonProbability_nat_pos (lambda : ℝ) (k : ℕ) :
    0 < poissonProbability lambda (k : ℤ) := by
  rw [poissonProbability, if_neg (by omega)]
  exact Real.exp_pos _

/-- The four-cell correction factor is positive whenever −1 < ρ < 1. -/
theorem dixonColesTau_pos {rho : ℝ} (hr1 : -1 < rho) (hr2 : rho < 1) (home away : ℕ) :
    0 < dixonColesTau home away rho := by
  rw [dixonColesTau]
  split_ifs <;> linarith

/-- Every adjusted cell is positive whenever −1 < ρ < 1. -/
theorem scoreMatrixAdjusted_pos (lambdaHome lambdaAway : ℝ) {rho : ℝ}
    (hr1 : -1 < rho) (hr2 : rho < 1) (home away : ℕ) :
    0 < scoreMatrixAdjusted lambdaHome lambdaAway rho home away := by
  rw [scoreMatrixAdjusted, scoreMatrixRaw]
  exact mul_pos (mul_pos (poissonProbability_nat_pos _ _) (poissonProbability_nat_pos _ _))
    (dixonColesTau_pos hr1 hr2 _ _)

/-- The normalization total is positive whenever −1 < ρ < 1. -/
theorem scoreMatrixTotal_pos (lambdaHome lambdaAway : ℝ) (maxGoals : ℕ) {rho : ℝ}
    (hr1 : -1 < rho) (hr2 : rho < 1) :
    0 < scoreMatrixTotal lambdaHome lambdaAway maxGoals rho := by
  rw [scoreMatrixTotal]
  refine Finset.sum_pos (fun h _ => Finset.sum_pos (fun a _ => ?_) ?_) ?_
  · exact scoreMatrixAdjusted_pos _ _ hr1 hr2 _ _
  · exact Finset.nonempty_range_iff.mpr (by omega)
  · exact Finset.nonempty_range_iff.mpr (by omega)

/-- After normalization the flattened matrix sums to exactly 1
whenever −1 < ρ < 1. -/
theorem calculateScoreMatrix_sum_one (lambdaHome lambdaAway : ℝ) (maxGoals : ℕ) {rho : ℝ}
    (hr1 : -1 < rho) (hr2 : rho < 1) :
    (calculateScoreMatrix lambdaHome lambdaAway maxGoals rho).flatten.sum = 1 := by
  have htot : scoreMatrixTotal lambdaHome lambdaAway maxGoals rho ≠ 0 :=
    ne_of_gt (scoreMatrixTotal_pos lambdaHome lambdaAway maxGoals hr1 hr2)
  rw [calculateScoreMatrix_flatten_sum]
  simp only [← Finset.sum_div]
  rw [← scoreMatrixTotal, div_self htot]

/-! ### Score-matrix invariants: claim C1 -/

/-- With rate 1, the Poisson primitive at 0 goals is e⁻¹. -/
theorem poissonProbability_one_zero : poissonProbability 1 (0 : ℤ) = Real.exp (-1) := by
  rw [poissonProbability, if_neg (by omega)]
  norm_num [logFactorial]

/-- With rate 1, the Poisson primitive at 1 goal is e⁻¹. -/
theorem poissonProbability_one_one : poissonProbability 1 (1 : ℤ) = Real.exp (-1) := by
  rw [poissonProbability, if_neg (by omega)]
  norm_num [logFactorial, Real.log_one]

/-- C1 counterexample: with ρ = 3 (which the claim's unrestricted
quantification over ρ allows), the (0,0) cell of the normalized score matrix
for λHome = λAway = 1 and maxGoals = 1 is negative, refuting non-negativity. -/
theorem scoreMatrix_negative_cell :
    matrixCell (calculateScoreMatrix 1 1 1 3) 0 0 < 0 := by
  rw [matrixCell_calculateScoreMatrix 1 1 1 3 (by omega) (by omega)]
  have hE : (0 : ℝ) < Real.exp (-1) * Real.exp (-1) :=
    mul_pos (Real.exp_pos _) (Real.exp_pos _)
  have hadj : scoreMatrixAdjusted 1 1 3 0 0 = Real.exp (-1) * Real.exp (-1) * (-2) := by
    simp [scoreMatrixAdjusted, scoreMatrixRaw, dixonColesTau, poissonProbability_one_zero]
    ring
  have htot : scoreMatrixTotal 1 1 1 3 = Real.exp (-1) * Real.exp (-1) * 4 := by
    rw [scoreMatrixTotal]
    simp [Finset.sum_range_succ, scoreMatrixAdjusted, scoreMatrixRaw, dixonColesTau,
      poissonProbability_one_zero, poissonProbability_one_one]
    ring
  rw [hadj, htot]
  exact div_neg_of_neg_of_pos (by nlinarith) (by nlinarith)

/-- C1 (amended): for positive rates and a correlation parameter with
−1 < ρ < 1 (which covers the reference value −0.13), every cell of the
normalized score matrix is a probability in [0,1] and the flattened grid
sums to exactly 1. -/
theorem scoreMatrix_cells_spec (lambdaHome lambdaAway : ℝ) (maxGoals : ℕ) (rho : ℝ)
    (hH : 0 < lambdaHome) (hA : 0 < lambdaAway) (hr1 : -1 < rho) (hr2 : rho < 1) :
    (∀ home away, home ≤ maxGoals → away ≤ maxGoals →
      0 ≤ matrixCell (calculateScoreMatrix lambdaHome lambdaAway maxGoals rho) home away ∧
      matrixCell (calculateScoreMatrix lambdaHome lambdaAway maxGoals rho) home away ≤ 1) ∧
    (calculateScoreMatrix lambdaHome lambdaAway maxGoals rho).flatten.sum = 1 := by
  refine ⟨fun home away hh ha => ?_, calculateScoreMatrix_sum_one _ _ _ hr1 hr2⟩
  rw [matrixCell_calculateScoreMatrix _ _ _ _ hh ha]
  have htot := scoreMatrixTotal_pos lambdaHome lambdaAway maxGoals hr1 hr2
  constructor
  · exact le_of_lt (div_pos (scoreMatrixAdjusted_pos _ _ hr1 hr2 _ _) htot)
  · rw [div_le_one htot]
    calc scoreMatrixAdjusted lambdaHome lambdaAway rho home away
        ≤ ∑ a ∈ Finset.range (maxGoals + 1),
            scoreMatrixAdjusted lambdaHome lambdaAway rho home a := by
          refine Finset.single_le_sum
            (fun a _ => le_of_lt (scoreMatrixAdjusted_pos lambdaHome lambdaAway hr1 hr2 home a))
            (Finset.mem_range.mpr ?_)
          omega
      _ ≤ scoreMatrixTotal lambdaHome lambdaAway maxGoals rho := by
          rw [scoreMatrixTotal]
          refine Finset.single_le_sum
            (fun h _ => Finset.sum_nonneg fun a _ =>
              le_of_lt (scoreMatrixAdjusted_pos lambdaHome lambdaAway hr1 hr2 h a))
            (Finset.mem_range.mpr ?_)
          omega

/-- C1 witness: the amended invariant instantiated at λHome = λAway = 1,
maxGoals = 1, ρ = 0. -/
theorem scoreMatrix_cells_spec_witness :
    (∀ home away, home ≤ 1 → away ≤ 1 →
      0 ≤ matrixCell (calculateScoreMatrix 1 1 1 0) home away ∧
      matrixCell (calculateScoreMatrix 1 1 1 0) home away ≤ 1) ∧
    (calculateScoreMatrix 1 1 1 0).flatten.sum = 1 :=
  scoreMatrix_cells_spec 1 1 1 0 one_pos one_pos (by norm_num) one_pos

/-! ### Outcome aggregator: unfolding lemmas for predictMatch -/

/-- probHome accumulates the cells with home > away of the default matrix. -/
theorem predictMatch_probHome (lambdaHome lambdaAway : ℝ) :
    (predictMatch lambdaHome lambdaAway).probHome =
      ∑ home ∈ Finset.range 11, ∑ away ∈ Finset.range 11,
        if away < home then
          matrixCell (calculateScoreMatrix lambdaHome lambdaAway 10 (-0.13)) home away
        else 0 := by
  simp [predictMatch, calculateScoreMatrix_length]

/-- probDraw accumulates the cells with home = away of the default matrix. -/
theorem predictMatch_probDraw (lambdaHome lambdaAway : ℝ) :
    (predictMatch lambdaHome lambdaAway).probDraw =
      ∑ home ∈ Finset.range 11, ∑ away ∈ Finset.range 11,
        if home = away then
          matrixCell (calculateScoreMatrix lambdaHome lambdaAway 10 (-0.13)) home away
        else 0 := by
  simp [predictMatch, calculateScoreMatrix_length]

/-- probAway accumulates the cells with home < away of the default matrix. -/
theorem predictMatch_probAway (lambdaHome lambdaAway : ℝ) :
    (predictMatch lambdaHome lambdaAway).probAway =
      ∑ home ∈ Finset.range 11, ∑ away ∈ Finset.range 11,
        if home < away then
          matrixCell (calculateScoreMatrix lambdaHome lambdaAway 10 (-0.13)) home away
        else 0 := by
  simp [predictMatch, calculateScoreMatrix_length]

/-- probOver2_5 accumulates the cells whose total clears the strict 2.5
threshold in the default matrix. -/
theorem predictMatch_probOver2_5 (lambdaHome lambdaAway : ℝ) :
    (predictMatch lambdaHome lambdaAway).probOver2_5 =
      ∑ home ∈ Finset.range 11, ∑ away ∈ Finset.range 11,
        if (2.5 : ℝ) < (home : ℝ) + (away : ℝ) then
          matrixCell (calculateScoreMatrix lambdaHome lambdaAway 10 (-0.13)) home away
        else 0 := by
  simp [predictMatch, calculateScoreMatrix_length]

/-- probBTTS accumulates the cells with both counts positive in the default
matrix. -/
theorem predictMatch_probBTTS (lambdaHome lambdaAway : ℝ) :
    (predictMatch lambdaHome lambdaAway).probBTTS =
      ∑ home ∈ Finset.range 11, ∑ away ∈ Finset.range 11,
        if 0 < home ∧ 0 < away then
          matrixCell (calculateScoreMatrix lambdaHome lambdaAway 10 (-0.13)) home away
        else 0 := by
  simp [predictMatch, calculateScoreMatrix_length]

/-- The double sum of in-range cells equals the flattened sum of the grid. -/
theorem sum_matrixCell_eq_flatten_sum (lambdaHome lambdaAway : ℝ) (maxGoals : ℕ) (rho : ℝ) :
    (∑ home ∈ Finset.range (maxGoals + 1), ∑ away ∈ Finset.range (maxGoals + 1),
      matrixCell (calculateScoreMatrix lambdaHome lambdaAway maxGoals rho) home away)
    = (calculateScoreMatrix lambdaHome lambdaAway maxGoals rho).flatten.sum := by
  rw [calculateScoreMatrix_flatten_sum]
  refine Finset.sum_congr rfl fun home hh => Finset.sum_congr rfl fun away ha => ?_
  exact matrixCell_calculateScoreMatrix lambdaHome lambdaAway maxGoals rho
    (Nat.lt_succ_iff.mp (Finset.mem_range.mp hh)) (Nat.lt_succ_iff.mp (Finset.mem_range.mp ha))

/-! ### Outcome aggregator: claim C2 -/

/-- C2: for positive rates, the three match-outcome probabilities returned
by predictMatch partition the (normalized) probability mass: their sum is
exactly 1. -/
theorem predictMatch_outcomes_sum_one (lambdaHome lambdaAway : ℝ)
    (hH : 0 < lambdaHome) (hA : 0 < lambdaAway) :
    (predictMatch lambdaHome lambdaAway).probHome +
      (predictMatch lambdaHome lambdaAway).probDraw +
      (predictMatch lambdaHome lambdaAway).probAway = 1 := by
  rw [predictMatch_probHome, predictMatch_probDraw, predictMatch_probAway]
  have key : (∑ home ∈ Finset.range 11, ∑ away ∈ Finset.range 11,
        if away < home then
          matrixCell (calculateScoreMatrix lambdaHome lambdaAway 10 (-0.13)) home away else 0) +
      (∑ home ∈ Finset.range 11, ∑ away ∈ Finset.range 11,
        if home = away then
          matrixCell (calculateScoreMatrix lambdaHome lambdaAway 10 (-0.13)) home away else 0) +
      (∑ home ∈ Finset.range 11, ∑ away ∈ Finset.range 11,
        if home < away then
          matrixCell (calculateScoreMatrix lambdaHome lambdaAway 10 (-0.13)) home away else 0) =
      ∑ home ∈ Finset.range 11, ∑ away ∈ Finset.range 11,
        matrixCell (calculateScoreMatrix lambdaHome lambdaAway 10 (-0.13)) home away := by
    rw [← Finset.sum_add_distrib, ← Finset.sum_add_distrib]
    refine Finset.sum_congr rfl fun home _ => ?_
    rw [← Finset.sum_add_distrib, ← Finset.sum_add_distrib]
    refine Finset.sum_congr rfl fun away _ => ?_
    rcases lt_trichotomy home away with hlt | heq | hgt
    · simp [hlt, Nat.lt_asymm hlt, Nat.ne_of_lt hlt]
    · subst heq
      simp
    · simp [hgt, Nat.lt_asymm hgt, (Nat.ne_of_lt hgt).symm]
  rw [key, sum_matrixCell_eq_flatten_sum]
  exact calculateScoreMatrix_sum_one lambdaHome lambdaAway 10 (by norm_num) (by norm_num)

/-- C2 witness: the outcome probabilities at λHome = λAway = 1 sum to 1. -/
theorem predictMatch_outcomes_sum_one_witness :
    (predictMatch 1 1).probHome + (predictMatch 1 1).probDraw +
      (predictMatch 1 1).probAway = 1 :=
  predictMatch_outcomes_sum_one 1 1 one_pos one_pos

/-! ### Outcome aggregator: claim C6 -/

/-- C6: probOver2_5 sums exactly the cells whose integer goal total is at
least 3 — the strict comparison against the half-integer threshold 2.5 picks
out precisely those cells, with no rounding. -/
theorem predictMatch_over25_spec (lambdaHome lambdaAway : ℝ) :
    (predictMatch lambdaHome lambdaAway).probOver2_5 =
      ∑ home ∈ Finset.range 11, ∑ away ∈ Finset.range 11,
        if 3 ≤ home + away then
          matrixCell (calculateScoreMatrix lambdaHome lambdaAway 10 (-0.13)) home away
        else 0 := by
  rw [predictMatch_probOver2_5]
  refine Finset.sum_congr rfl fun home _ => Finset.sum_congr rfl fun away _ => ?_
  by_cases h : 3 ≤ home + away
  · have hc : (2.5 : ℝ) < (home : ℝ) + (away : ℝ) := by
      have h3 : (3 : ℝ) ≤ (home : ℝ) + (away : ℝ) := by exact_mod_cast h
      linarith
    rw [if_pos hc, if_pos h]
  · have h2 : home + away ≤ 2 := by omega
    have hc : ¬ (2.5 : ℝ) < (home : ℝ) + (away : ℝ) := by
      push_neg
      have hle : (home : ℝ) + (away : ℝ) ≤ 2 := by exact_mod_cast h2
      linarith
    rw [if_neg hc, if_neg h]

/-! ### Score-matrix symmetry: claim C7 -/

/-- The four-cell correction factor is symmetric in the two goal counts. -/
theorem dixonColesTau_symm (home away : ℕ) (rho : ℝ) :
    dixonColesTau home away rho = dixonColesTau away home rho := by
  rw [dixonColesTau, dixonColesTau]
  split_ifs <;> first | rfl | omega

/-- Swapping the rate parameters and the goal counts leaves an adjusted cell
unchanged. -/
theorem scoreMatrixAdjusted_symm (lambdaA lambdaB : ℝ) (rho : ℝ) (home away : ℕ) :
    scoreMatrixAdjusted lambdaB lambdaA rho home away =
      scoreMatrixAdjusted lambdaA lambdaB rho away home := by
  rw [scoreMatrixAdjusted, scoreMatrixAdjusted, scoreMatrixRaw, scoreMatrixRaw,
    dixonColesTau_symm]
  ring

/-- The normalization total is unchanged by swapping the rate parameters. -/
theorem scoreMatrixTotal_symm (lambdaA lambdaB : ℝ) (maxGoals : ℕ) (rho : ℝ) :
    scoreMatrixTotal lambdaB lambdaA maxGoals rho =
      scoreMatrixTotal lambdaA lambdaB maxGoals rho := by
  rw [scoreMatrixTotal, scoreMatrixTotal, Finset.sum_comm]
  exact Finset.sum_congr rfl fun home _ => Finset.sum_congr rfl fun away _ =>
    scoreMatrixAdjusted_symm lambdaA lambdaB rho away home

/-- C7: swapping the home and away rate parameters transposes the normalized
score matrix: cell (home, away) of the swapped-rate matrix equals cell
(away, home) of the original. -/
theorem scoreMatrix_transpose_symm (lambdaA lambdaB : ℝ) (maxGoals : ℕ) (rho : ℝ)
    (hla : 0 < lambdaA) (hlb : 0 < lambdaB) {home away : ℕ}
    (hh : home ≤ maxGoals) (ha : away ≤ maxGoals) :
    matrixCell (calculateScoreMatrix lambdaB lambdaA maxGoals rho) home away =
      matrixCell (calculateScoreMatrix lambdaA lambdaB maxGoals rho) away home := by
  rw [matrixCell_calculateScoreMatrix _ _ _ _ hh ha,
    matrixCell_calculateScoreMatrix _ _ _ _ ha hh,
    scoreMatrixAdjusted_symm, scoreMatrixTotal_symm]

/-- C7 witness: at rates 1 and 2 with maxGoals = 1, ρ = 0, cell (1,0) of the
swapped matrix equals cell (0,1) of the original. -/
theorem scoreMatrix_transpose_symm_witness :
    matrixCell (calculateScoreMatrix 2 1 1 0) 1 0 =
      matrixCell (calculateScoreMatrix 1 2 1 0) 0 1 :=
  scoreMatrix_transpose_symm 1 2 1 0 one_pos two_pos (by omega) (by omega)

/-! ### The rho = 0 case: claim C8 -/

/-- C8 counterexample: with λHome = λAway = 1, maxGoals = 0 and ρ = 0, the
normalized (0,0) cell is 1 (the single cell is renormalized to full mass),
while the raw independent-Poisson product is e⁻² ≠ 1, so the cells of
calculateScoreMatrix with ρ = 0 do not equal the raw Poisson products. -/
theorem scoreMatrix_rho_zero_counterexample :
    matrixCell (calculateScoreMatrix 1 1 0 0) 0 0 ≠
      poissonProbability 1 (0 : ℤ) * poissonProbability 1 (0 : ℤ) := by
  have hcell : matrixCell (calculateScoreMatrix 1 1 0 0) 0 0 = 1 := by
    rw [matrixCell_calculateScoreMatrix 1 1 0 0 (le_refl 0) (le_refl 0)]
    have htot : scoreMatrixTotal 1 1 0 0 = scoreMatrixAdjusted 1 1 0 0 0 := by
      rw [scoreMatrixTotal]
      simp
    rw [htot,
      div_self (ne_of_gt (scoreMatrixAdjusted_pos 1 1 (by norm_num) (by norm_num) 0 0))]
  rw [hcell, poissonProbability_one_zero]
  have hexp : Real.exp (-1) * Real.exp (-1) = Real.exp (-2) := by
    rw [← Real.exp_add]
    norm_num
  rw [hexp]
  have hlt : Real.exp (-2) < 1 := by
    rw [Real.exp_lt_one_iff]
    norm_num
  intro heq
  rw [← heq] at hlt
  exact lt_irrefl 1 hlt

/-- C8 (amended): with ρ = 0 the correction factor is 1 on every cell, so
the matrix is the plain independent-Poisson product grid after the mandatory
renormalization: each cell is the raw product divided by the total raw mass
of the truncated grid. -/
theorem scoreMatrix_rho_zero_spec (lambdaHome lambdaAway : ℝ) (maxGoals : ℕ)
    {home away : ℕ} (hh : home ≤ maxGoals) (ha : away ≤ maxGoals) :
    dixonColesTau home away 0 = 1 ∧
    matrixCell (calculateScoreMatrix lambdaHome lambdaAway maxGoals 0) home away =
      poissonProbability lambdaHome (home : ℤ) * poissonProbability lambdaAway (away : ℤ) /
        (∑ h ∈ Finset.range (maxGoals + 1), ∑ a ∈ Finset.range (maxGoals + 1),
          poissonProbability lambdaHome (h : ℤ) * poissonProbability lambdaAway (a : ℤ)) := by
  have htau : ∀ h a : ℕ, dixonColesTau h a 0 = 1 := by
    intro h a
    rw [dixonColesTau]
    split_ifs <;> norm_num
  have hadj : ∀ h a : ℕ, scoreMatrixAdjusted lambdaHome lambdaAway 0 h a =
      poissonProbability lambdaHome (h : ℤ) * poissonProbability lambdaAway (a : ℤ) := by
    intro h a
    rw [scoreMatrixAdjusted, scoreMatrixRaw, htau, mul_one]
  refine ⟨htau home away, ?_⟩
  rw [matrixCell_calculateScoreMatrix _ _ _ _ hh ha, hadj home away, scoreMatrixTotal]
  congr 1
  exact Finset.sum_congr rfl fun h _ => Finset.sum_congr rfl fun a _ => hadj h a

/-- C8 witness: the amended statement instantiated at λHome = λAway = 1,
maxGoals = 0, cell (0,0). -/
theorem scoreMatrix_rho_zero_spec_witness :
    dixonColesTau 0 0 0 = 1 ∧
    matrixCell (calculateScoreMatrix 1 1 0 0) 0 0 =
      poissonProbability 1 ((0 : ℕ) : ℤ) * poissonProbability 1 ((0 : ℕ) : ℤ) /
        (∑ h ∈ Finset.range 1, ∑ a ∈ Finset.range 1,
          poissonProbability 1 (h : ℤ) * poissonProbability 1 (a : ℤ)) :=
  scoreMatrix_rho_zero_spec 1 1 0 (le_refl 0) (le_refl 0)

/-! ### Hard-wired prediction defaults: claim C10 -/

/-- C10: predictMatch aggregates exactly the matrix built with the
hard-wired defaults maxGoals = 10 and ρ = −0.13 — its interface offers no
way to choose them — and echoes the two input rates unchanged as xgHome and
xgAway. -/
theorem predictMatch_defaults_spec (lambdaHome lambdaAway : ℝ) :
    (predictMatch lambdaHome lambdaAway).xgHome = lambdaHome ∧
    (predictMatch lambdaHome lambdaAway).xgAway = lambdaAway ∧
    (predictMatch lambdaHome lambdaAway).prob0_0 =
      matrixCell (calculateScoreMatrix lambdaHome lambdaAway 10 (-0.13)) 0 0 ∧
    (predictMatch lambdaHome lambdaAway).probHome =
      (∑ home ∈ Finset.range 11, ∑ away ∈ Finset.range 11,
        if away < home then
          matrixCell (calculateScoreMatrix lambdaHome lambdaAway 10 (-0.13)) home away
        else 0) ∧
    (predictMatch lambdaHome lambdaAway).probDraw =
      (∑ home ∈ Finset.range 11, ∑ away ∈ Finset.range 11,
        if home = away then
          matrixCell (calculateScoreMatrix lambdaHome lambdaAway 10 (-0.13)) home away
        else 0) ∧
    (predictMatch lambdaHome lambdaAway).probAway =
      (∑ home ∈ Finset.range 11, ∑ away ∈ Finset.range 11,
        if home < away then
          matrixCell (calculateScoreMatrix lambdaHome lambdaAway 10 (-0.13)) home away
        else 0) ∧
    (predictMatch lambdaHome lambdaAway).probOver2_5 =
      (∑ home ∈ Finset.range 11, ∑ away ∈ Finset.range 11,
        if (2.5 : ℝ) < (home : ℝ) + (away : ℝ) then
          matrixCell (calculateScoreMatrix lambdaHome lambdaAway 10 (-0.13)) home away
        else 0) ∧
    (predictMatch lambdaHome lambdaAway).probBTTS =
      (∑ home ∈ Finset.range 11, ∑ away ∈ Finset.range 11,
        if 0 < home ∧ 0 < away then
          matrixCell (calculateScoreMatrix lambdaHome lambdaAway 10 (-0.13)) home away
        else 0) :=
  ⟨rfl, rfl, rfl, predictMatch_probHome lambdaHome lambdaAway,
    predictMatch_probDraw lambdaHome lambdaAway, predictMatch_probAway lambdaHome lambdaAway,
    predictMatch_probOver2_5 lambdaHome lambdaAway, predictMatch_probBTTS lambdaHome lambdaAway⟩

/-! ### Behaviour at rate zero: claim C5

The real-number embedding cannot distinguish the λ = 0 case, because there
the source's arithmetic is decided by IEEE-754 special values:
Math.log(0) is −∞ and 0 · (−∞) is NaN. The model below re-expresses the
body of poissonProbability over a value type that carries NaN and ±∞ with
the IEEE propagation rules for exactly the operations the body performs. -/

/-- An IEEE-754 double as used on the poissonProbability evaluation path:
NaN, −∞, +∞, or a finite real. -/
inductive JsVal where
  | nan : JsVal
  | ninf : JsVal
  | pinf : JsVal
  | num : ℝ → JsVal

/-- IEEE semantics of Math.log on reals: NaN for negative arguments, −∞ at
zero, and the real logarithm on positive arguments. -/
noncomputable def jsLog (x : ℝ) : JsVal :=
  if x < 0 then .nan else if x = 0 then .ninf else .num (Real.log x)

/-- IEEE multiplication of a finite real by a value: NaN propagates, and a
finite times ±∞ is ±∞ with the sign rule except 0 · ±∞ = NaN. -/
noncomputable def jsMulNum (c : ℝ) (v : JsVal) : JsVal :=
  match v with
  | .nan => .nan
  | .ninf => if c = 0 then .nan else if 0 < c then .ninf else .pinf
  | .pinf => if c = 0 then .nan else if 0 < c then .pinf else .ninf
  | .num y => .num (c * y)

/-- IEEE subtraction of a finite real from a value: NaN and ±∞ absorb. -/
def jsSubNum (v : JsVal) (c : ℝ) : JsVal :=
  match v with
  | .nan => .nan
  | .ninf => .ninf
  | .pinf => .pinf
  | .num x => .num (x - c)

/-- IEEE semantics of Math.exp: NaN propagates, exp(−∞) = 0, exp(+∞) = +∞. -/
noncomputable def jsExp (v : JsVal) : JsVal :=
  match v with
  | .nan => .nan
  | .ninf => .num 0
  | .pinf => .pinf
  | .num x => .num (Real.exp x)

/-- The body of poissonProbability — k·ln(λ) − λ − ln(k!) then exp — with
each operation given its IEEE special-value semantics. -/
noncomputable def poissonProbabilityIEEE (lambda : ℝ) (k : ℤ) : JsVal :=
  if k < 0 then .num 0
  else jsExp (jsSubNum (jsSubNum (jsMulNum (k : ℝ) (jsLog lambda)) lambda) (logFactorial k.toNat))

/-- C5: at rate λ = 0 the code returns 0 for every positive count k, but at
k = 0 it computes 0 · ln(0) = 0 · (−∞) = NaN, so poissonProbability(0, 0) is
NaN rather than the 1 the claim (and the function's own documented formula
λ^k·e^(−λ)/k!) requires. -/
theorem poissonProbability_rate_zero :
    poissonProbabilityIEEE 0 0 = JsVal.nan ∧
    ∀ k : ℤ, 0 < k → poissonProbabilityIEEE 0 k = JsVal.num 0 := by
  constructor
  · rw [poissonProbabilityIEEE, if_neg (by omega)]
    simp [jsLog, jsMulNum, jsSubNum, jsExp]
  · intro k hk
    rw [poissonProbabilityIEEE, if_neg (by omega)]
    have hkr : (0 : ℝ) < (k : ℝ) := by exact_mod_cast hk
    rw [jsLog, if_neg (by norm_num), if_pos rfl]
    rw [jsMulNum, if_neg (ne_of_gt hkr), if_pos hkr]
    rfl

/-- C5 witness: the divergent value at the failing input (0,0) together with
the claim's correct half at k = 1. -/
theorem poissonProbability_rate_zero_witness :
    poissonProbabilityIEEE 0 0 = JsVal.nan ∧ poissonProbabilityIEEE 0 1 = JsVal.num 0 :=
  ⟨(poissonProbability_rate_zero).1, (poissonProbability_rate_zero).2 1 (by omega)⟩
